import Mathlib

/-!
Verification of the hamilton adapter-resolution core
(`hamilton/function_modifiers/adapters.py`) and the concurrent value
resolver of `hamilton.experimental.h_async`, via a shallow embedding.

Python values are embedded as the inductive `PyVal`, Python type objects
(the things stored in annotations and passed to `applies_to`) as `TType`,
and Python dicts as association lists manipulated with helpers that mirror
CPython dict semantics (insertion order, last-write-wins update).
-/

set_option autoImplicit false

namespace Hamilton

/-- Embedded Python runtime values (the fragment the adapter machinery
touches: dataclass kwargs, loaded data, metadata, tag values). Metadata
dicts are opaque to the adapter machinery, so a plain value suffices. -/
inductive PyVal where
  | none
  | bool (b : Bool)
  | int (n : Int)
  | str (s : String)
  | pair (a b : PyVal)
deriving DecidableEq, Repr, Inhabited

/-- Embedded Python type objects: what appears in annotations
(`dict`, `Tuple[Dict[str, Any], T]`, `Any`, ...) and is passed to
`applies_to`. -/
inductive TType where
  | named (s : String)
  | any
  | dict (k v : TType)
  | tup (a b : TType)
deriving DecidableEq, Repr, Inhabited

/-- Embeds `hamilton.node.DependencyType`. -/
inductive DependencyType where
  | required
  | optional
deriving DecidableEq, Repr, Inhabited

/-- Embeds `hamilton.function_modifiers.dependencies.ParametrizedDependency`:
either `UpstreamDependency(source)` (from `source(...)`) or
`LiteralDependency(value)` (from `value(...)`). -/
inductive ParametrizedDependency where
  | upstream (source : String)
  | literal (value : PyVal)
deriving DecidableEq, Repr, Inhabited

/-- First component of a `PyVal.pair`, i.e. Python's `x[0]` on a 2-tuple. -/
def PyVal.first : PyVal → PyVal
  | .pair a _ => a
  | _ => .none

/-! ### Python dict semantics over association lists -/

/-- Python's `k in d` for a dict. -/
def dictContains {α : Type} (m : List (String × α)) (k : String) : Bool :=
  m.any (fun p => p.1 = k)

/-- Python's `d[k]` as an `Option` (Python raises `KeyError` when absent). -/
def dictLookup {α : Type} (m : List (String × α)) (k : String) : Option α :=
  (m.find? (fun p => p.1 = k)).map Prod.snd

/-- Python's `d.get(k, dflt)`. -/
def dictGetD {α : Type} (m : List (String × α)) (k : String) (dflt : α) : α :=
  (dictLookup m k).getD dflt

/-- Python's `d[k] = v`: update in place when the key exists (keeping its position),
append otherwise — CPython insertion-order semantics. -/
def dictInsert {α : Type} (m : List (String × α)) (k : String) (v : α) :
    List (String × α) :=
  if dictContains m k then m.map (fun p => if p.1 = k then (k, v) else p)
  else m ++ [(k, v)]

/-- Python's `del d[k]`, equally the comprehension dropping key `k`. -/
def dictRemove {α : Type} (m : List (String × α)) (k : String) :
    List (String × α) :=
  m.filter (fun p => p.1 ≠ k)

/-- Python's merge of two dicts: start from `a`, write every entry of `b` over it. -/
def dictMerge {α : Type} (a b : List (String × α)) : List (String × α) :=
  b.foldl (fun acc p => dictInsert acc p.1 p.2) a

/-- A dict comprehension `{f(k): v for k, v in m.items()}` (later duplicate
keys overwrite earlier ones, as in Python). -/
def dictComprehension {α : Type} (f : String → String) (m : List (String × α)) :
    List (String × α) :=
  m.foldl (fun acc p => dictInsert acc (f p.1) p.2) []

/-! ### Adapter capability descriptors -/

/-- An adapter implementation class (`Type[AdapterCommon]`): its static
capability descriptor (name, required/optional argument schemas, the
`applies_to` predicate, `can_load`/`can_save` flags) together with the
behaviour of instances constructed from resolved kwargs (`load_data` on a
constructed loader, `save_data` on a constructed saver). -/
structure AdapterClass where
  sname : String
  clsname : String
  required_args : List (String × TType)
  optional_args : List (String × TType)
  applies_to : TType → Bool
  can_load : Bool
  can_save : Bool
  load : List (String × PyVal) → TType → PyVal × PyVal
  save : List (String × PyVal) → PyVal → PyVal

/-- Embeds `hamilton.function_modifiers.base.InvalidDecoratorException`, with each
constructor carrying exactly the data interpolated into the corresponding
`raise` site's message in `adapters.py`. -/
inductive InvalidDecoratorException where
  | missingParams (missing : List String)
      (required optional : List (String × TType))
  | extraParams (extra : List String)
  | cannotLoad (clsname : String)
  | cannotSave (clsname : String)
  | noParameters (qualname : String)
  | multipleParams (qualname : String)
  | invalidInject (inject : String) (qualname : String)
  | noLoaderClass (type_ : TType) (param : String) (qualname : String)
  | noSaverClass (type_ : TType) (nodeName : String) (qualname : String)
deriving DecidableEq, Repr, Inhabited

/-- Errors a node body can raise at call time: an
`InvalidDecoratorException` (from `create_loader`/`create_saver`) or a
Python `KeyError` from a missing dict key. -/
inductive PyErr where
  | invalid (e : InvalidDecoratorException)
  | keyError (key : String)
deriving DecidableEq, Repr, Inhabited

/-! ### `resolve_kwargs` -/

/-- Embeds `adapters.resolve_kwargs`: split the decorator kwargs into
(dependencies: name → upstream source name, literals: name → value),
iterating entries in order exactly as the `for` loop does. -/
def resolve_kwargs (kwargs : List (String × ParametrizedDependency)) :
    List (String × String) × List (String × PyVal) :=
  (kwargs.filterMap (fun p =>
      match p.2 with
      | .upstream s => some (p.1, s)
      | .literal _ => Option.none),
   kwargs.filterMap (fun p =>
      match p.2 with
      | .upstream _ => Option.none
      | .literal v => some (p.1, v)))

/-! ### `resolve_adapter_class` -/

/-- Embeds `adapters.resolve_adapter_class`: scan the candidate classes in
reverse registration order and return the first whose `applies_to` accepts
the type; `none` when no candidate matches. -/
def resolve_adapter_class (type_ : TType) (loader_classes : List AdapterClass) :
    Option AdapterClass :=
  loader_classes.reverse.find? (fun c => c.applies_to type_)

/-! ### `AdapterFactory` -/

/-- The two set differences computed by `AdapterFactory.validate`:
`missing_params = required - supplied`. Keys keep the registration order of
`required_args`. -/
def missing_params (cls : AdapterClass)
    (kwargs : List (String × ParametrizedDependency)) : List String :=
  (cls.required_args.map Prod.fst).filter
    (fun k => ¬ dictContains kwargs k)

/-- The second set difference, `extra_params = supplied - required - optional`. -/
def extra_params (cls : AdapterClass)
    (kwargs : List (String × ParametrizedDependency)) : List String :=
  (kwargs.map Prod.fst).filter
    (fun k => ¬ dictContains cls.required_args k ∧ ¬ dictContains cls.optional_args k)

/-- Embeds `AdapterFactory`: an adapter class together with the parameterized
dependencies passed to the decorator. -/
structure AdapterFactory where
  adapter_cls : AdapterClass
  kwargs : List (String × ParametrizedDependency)

/-- Embeds `AdapterFactory.validate`: raise `InvalidDecoratorException` listing
the missing parameters together with the full required/optional schemas
when any required parameter is unsupplied, otherwise raise listing the
extra parameters when any supplied parameter is neither required nor
optional. -/
def AdapterFactory.validate (f : AdapterFactory) :
    Except InvalidDecoratorException Unit :=
  if (missing_params f.adapter_cls f.kwargs).length > 0 then
    .error (.missingParams (missing_params f.adapter_cls f.kwargs)
      f.adapter_cls.required_args f.adapter_cls.optional_args)
  else if (extra_params f.adapter_cls f.kwargs).length > 0 then
    .error (.extraParams (extra_params f.adapter_cls f.kwargs))
  else .ok ()

/-- Embeds `AdapterFactory.__init__`: store the class and kwargs, then
`self.validate()` (which may raise). -/
def AdapterFactory.make (adapter_cls : AdapterClass)
    (kwargs : List (String × ParametrizedDependency)) :
    Except InvalidDecoratorException AdapterFactory :=
  match AdapterFactory.validate ⟨adapter_cls, kwargs⟩ with
  | .error e => .error e
  | .ok () => .ok ⟨adapter_cls, kwargs⟩

/-- Embeds `AdapterFactory.create_loader`: fail unless `can_load`, else construct
the adapter instance from the resolved kwargs (the instance is represented
by its `load_data` behaviour). -/
def AdapterFactory.create_loader (f : AdapterFactory)
    (resolved_kwargs : List (String × PyVal)) :
    Except InvalidDecoratorException (TType → PyVal × PyVal) :=
  if f.adapter_cls.can_load then .ok (f.adapter_cls.load resolved_kwargs)
  else .error (.cannotLoad f.adapter_cls.clsname)

/-- Embeds `AdapterFactory.create_saver`: fail unless `can_save`, else construct
the adapter instance (represented by its `save_data` behaviour). -/
def AdapterFactory.create_saver (f : AdapterFactory)
    (resolved_kwargs : List (String × PyVal)) :
    Except InvalidDecoratorException (PyVal → PyVal) :=
  if f.adapter_cls.can_save then .ok (f.adapter_cls.save resolved_kwargs)
  else .error (.cannotSave f.adapter_cls.clsname)

/-! ### The node abstraction -/

/-- Modelled from the spec: the external Node abstraction (spec section 6)
supplies a name, a namespace (disambiguating prefix), a declared output
type, an input-type map name → (type, requiredness), a callable body over
keyword arguments, and a copy-with-overrides operation (Lean record
update). The `name` seen by the rest of the system joins the namespace
prefix onto the base name (see `Node.name`). -/
structure Node where
  base_name : String
  namespc : List String
  typ : TType
  input_types : List (String × (TType × DependencyType))
  callabl : List (String × PyVal) → Except PyErr PyVal
  tags : List (String × PyVal)

instance : Inhabited Node :=
  ⟨⟨"", [], .any, [], fun _ => .error (.keyError ""), []⟩⟩

/-- Dot-join a non-empty name path. -/
def joinDots : List String → String
  | [] => ""
  | [s] => s
  | s :: rest => s ++ "." ++ joinDots rest

/-- Modelled from the spec: the node's externally visible name is its base
name qualified by the namespace prefix (how the synthesized loader node is
referred to by the rewritten node). -/
def Node.name (n : Node) : String :=
  joinDots (n.namespc ++ [n.base_name])

/-- A Python function as the decorator machinery sees it:
`__name__`, `__qualname__`, `inspect.signature` parameters with their
`typing.get_type_hints` types, the return annotation, and the call
behaviour over keyword arguments. -/
structure PyFunc where
  fname : String
  qualname : String
  params : List (String × TType)
  ret : TType
  call : List (String × PyVal) → PyVal

/-- Modelled from the spec: `node.Node.from_fn` builds the original
function node — name from the function, empty namespace, output type from
the return annotation, every signature parameter a required input, body
invoking the function on its keyword arguments. -/
def Node.from_fn (fn : PyFunc) : Node :=
  { base_name := fn.fname
    namespc := []
    typ := fn.ret
    input_types := fn.params.map (fun p => (p.1, (p.2, DependencyType.required)))
    callabl := fun kwargs => .ok (fn.call kwargs)
    tags := [] }

/-! ### `LoadFromDecorator` -/

/-- Embeds `LoadFromDecorator.__init__`: candidate loader classes, the optional
explicit injection parameter `inject_`, and the parameterized kwargs. -/
structure LoadFromDecorator where
  loader_classes : List AdapterClass
  inject : Option String
  kwargs : List (String × ParametrizedDependency)

/-- Embeds `LoadFromDecorator._get_inject_parameter`: with no explicit `inject_`
the function must have exactly one parameter (zero or several raise
`InvalidDecoratorException`); an explicit `inject_` must be among the
signature's parameters. Returns the parameter and its declared type. -/
def LoadFromDecorator.get_inject_parameter (d : LoadFromDecorator)
    (fn : PyFunc) : Except InvalidDecoratorException (String × TType) :=
  match d.inject with
  | Option.none =>
    if fn.params.length = 0 then
      .error (.noParameters fn.qualname)
    else if fn.params.length ≠ 1 then
      .error (.multipleParams fn.qualname)
    else
      match fn.params with
      | (p, t) :: _ => .ok (p, t)
      | [] => .error (.noParameters fn.qualname)
  | some inj =>
    if dictContains fn.params inj then
      .ok (inj, dictGetD fn.params inj TType.any)
    else
      .error (.invalidInject inj fn.qualname)

/-- The `load_data` closure synthesized inside
`LoadFromDecorator.generate_nodes` (body of the loader node): remap the
call-time inputs through the inverted dependency map, merge the literal
kwargs under them, construct the loader through the factory, and invoke
its load operation with the target type, returning the (value, metadata)
pair. -/
def load_data (loader_factory : AdapterFactory) (load_type : TType)
    (resolved_kwargs : List (String × PyVal))
    (dependencies : List (String × String))
    (input_kwargs : List (String × PyVal)) : Except PyErr PyVal :=
  let input_args_with_fixed_dependencies :=
    dictComprehension (fun key => dictGetD dependencies key key) input_kwargs
  let kwargs := dictMerge resolved_kwargs input_args_with_fixed_dependencies
  match loader_factory.create_loader kwargs with
  | .error e => .error (.invalid e)
  | .ok data_loader =>
    let vm := data_loader load_type
    .ok (.pair vm.1 vm.2)

/-- The `inject_function` closure synthesized inside
`LoadFromDecorator.generate_nodes` (body of the rewritten node): copy the
kwargs, bind the injection parameter to element 0 of the loader node's
output, delete the loader node's entry, and call the original function. -/
def inject_function (fn : PyFunc) (inject_parameter loader_node_name : String)
    (kwargs : List (String × PyVal)) : Except PyErr PyVal :=
  match dictLookup kwargs loader_node_name with
  | Option.none => .error (.keyError loader_node_name)
  | some loaded =>
    let new_kwargs := dictInsert kwargs inject_parameter loaded.first
    let new_kwargs := dictRemove new_kwargs loader_node_name
    .ok (fn.call new_kwargs)

/-- The key under which a loader/saver parameter appears in the node's
input-type map: the upstream source name when dependency-supplied, the
parameter's own name otherwise (`get_input_type_key`). -/
def get_input_type_key (dependencies : List (String × String))
    (key : String) : String :=
  if dictContains dependencies key then dictGetD dependencies key key else key

/-- The input-type map shared by `generate_nodes` and `transform_node`:
every required adapter parameter (under its `get_input_type_key`) is a
required input of `Any`; every optional parameter with a supplied
dependency is an optional input under its source name; entries whose key
is a literal (resolved) kwarg are then filtered out. -/
def adapter_input_types (cls : AdapterClass)
    (dependencies : List (String × String))
    (resolved_kwargs : List (String × PyVal)) :
    List (String × (TType × DependencyType)) :=
  let base := (cls.required_args.map Prod.fst).foldl
    (fun acc key =>
      dictInsert acc (get_input_type_key dependencies key)
        (TType.any, DependencyType.required)) []
  let updated := ((cls.optional_args.map Prod.fst).filter
      (fun key => dictContains dependencies key)).foldl
    (fun acc key =>
      dictInsert acc (dictGetD dependencies key key)
        (TType.any, DependencyType.optional)) base
  updated.filter (fun p => ¬ dictContains resolved_kwargs p.1)

/-- The inverted dependency map (upstream source name to adapter keyword)
(upstream source name → adapter keyword name) built inside
`generate_nodes` and `transform_node`. -/
def invert_dependencies (dependencies : List (String × String)) :
    List (String × String) :=
  dictComprehension id (dependencies.map (fun p => (p.2, p.1)))

/-- The success tail of `LoadFromDecorator.generate_nodes` (lines after
the factory is validated): resolve and invert the dependency map, then
synthesize the loader node and the rewritten target node. -/
def LoadFromDecorator.synthesize (d : LoadFromDecorator) (fn : PyFunc)
    (inject_parameter : String) (type_ : TType) (loader_cls : AdapterClass)
    (loader_factory : AdapterFactory) : List Node :=
  let (dependencies, resolved_kwargs) := resolve_kwargs d.kwargs
  let dependencies_inverted := invert_dependencies dependencies
  let load_type := type_
  let loader_node : Node :=
    { base_name := inject_parameter
      namespc := ["load_data", fn.fname]
      typ := .tup (.dict (.named "str") .any) load_type
      input_types := adapter_input_types loader_cls dependencies resolved_kwargs
      callabl := load_data loader_factory load_type resolved_kwargs
        dependencies_inverted
      tags := [("hamilton.data_loader", .bool true),
               ("hamilton.data_loader.source", .str loader_cls.sname),
               ("hamilton.data_loader.classname", .str loader_cls.clsname)] }
  let raw_node := Node.from_fn fn
  let new_input_types :=
    raw_node.input_types.foldl
      (fun acc p =>
        dictInsert acc
          (if p.1 ≠ inject_parameter then p.1 else loader_node.name)
          (loader_node.typ, DependencyType.required)) []
  let data_node : Node :=
    { raw_node with
      input_types := new_input_types
      callabl := inject_function fn inject_parameter loader_node.name }
  [loader_node, data_node]

/-- Embeds `LoadFromDecorator.generate_nodes`: determine the injection parameter,
resolve the loader class (construction-time failure when none), build and
validate the adapter factory, then synthesize the loader node and the
rewritten target node (`LoadFromDecorator.synthesize`). -/
def LoadFromDecorator.generate_nodes (d : LoadFromDecorator) (fn : PyFunc) :
    Except InvalidDecoratorException (List Node) := do
  let (inject_parameter, type_) ← d.get_inject_parameter fn
  let loader_cls ←
    match resolve_adapter_class type_ d.loader_classes with
    | Option.none =>
      Except.error (.noLoaderClass type_ inject_parameter fn.qualname)
    | some c => Except.ok c
  let loader_factory ← AdapterFactory.make loader_cls d.kwargs
  return d.synthesize fn inject_parameter type_ loader_cls loader_factory

/-! ### `SaveToDecorator` -/

/-- Embeds `SaveToDecorator.__init__`: candidate saver classes, the optional
explicit `output_name_`, and the parameterized kwargs. -/
structure SaveToDecorator where
  saver_classes : List AdapterClass
  output_name : Option String
  kwargs : List (String × ParametrizedDependency)

/-- The merged call-time kwargs computed at the top of the `save_data`
closure: call-time inputs remapped through the inverted dependency map,
written over the literal kwargs. -/
def merged_save_kwargs (resolved_kwargs : List (String × PyVal))
    (dependencies : List (String × String))
    (input_kwargs : List (String × PyVal)) : List (String × PyVal) :=
  let input_args_with_fixed_dependencies :=
    dictComprehension (fun key => dictGetD dependencies key key) input_kwargs
  dictMerge resolved_kwargs input_args_with_fixed_dependencies

/-- The `save_data` closure synthesized inside
`SaveToDecorator.transform_node` (body of the saver node): merge the
kwargs, extract the data to save under the original node's name, drop that
entry from the kwargs, construct the saver through the factory, and save
the extracted value, returning the metadata. -/
def save_data (adapter_factory : AdapterFactory)
    (dependencies : List (String × String))
    (resolved_kwargs : List (String × PyVal)) (data_node_name : String)
    (input_kwargs : List (String × PyVal)) : Except PyErr PyVal :=
  let kwargs := merged_save_kwargs resolved_kwargs dependencies input_kwargs
  match dictLookup kwargs data_node_name with
  | Option.none => .error (.keyError data_node_name)
  | some data_to_save =>
    let kwargs := kwargs.filter (fun p => p.1 ≠ data_node_name)
    match adapter_factory.create_saver kwargs with
    | .error e => .error (.invalid e)
    | .ok data_saver => .ok (data_saver data_to_save)

/-- The success tail of `SaveToDecorator.transform_node`: default the
artifact name to the node's name under a `save` namespace, resolve and
invert the dependency map, and synthesize the saver node — whose
input-type map is the adapter-derived map plus a mandatory entry for the
original node's output — returning it together with the untouched original
node. -/
def SaveToDecorator.synthesize (d : SaveToDecorator) (node_ : Node)
    (saver_cls : AdapterClass) (adapter_factory : AdapterFactory) :
    List Node :=
  let artifact_name := d.output_name.getD node_.name
  let artifact_namespace : List String :=
    match d.output_name with
    | Option.none => ["save"]
    | some _ => []
  let (dependencies, resolved_kwargs) := resolve_kwargs d.kwargs
  let dependencies_inverted := invert_dependencies dependencies
  let input_types :=
    dictInsert (adapter_input_types saver_cls dependencies resolved_kwargs)
      node_.name (node_.typ, DependencyType.required)
  let save_node : Node :=
    { base_name := artifact_name
      namespc := artifact_namespace
      typ := .dict (.named "str") .any
      input_types := input_types
      callabl := save_data adapter_factory dependencies_inverted
        resolved_kwargs node_.name
      tags := [("hamilton.data_saver", .bool true),
               ("hamilton.data_saver.sink", .str saver_cls.sname),
               ("hamilton.data_saver.classname", .str saver_cls.clsname)] }
  [save_node, node_]

/-- Embeds `SaveToDecorator.transform_node`: resolve the saver class against the
node's output type (construction-time failure when none), build and
validate the adapter factory, then synthesize the saver node and return it
with the untouched original node (`SaveToDecorator.synthesize`). -/
def SaveToDecorator.transform_node (d : SaveToDecorator) (node_ : Node)
    (fn_qualname : String) : Except InvalidDecoratorException (List Node) := do
  let type_ := node_.typ
  let saver_cls ←
    match resolve_adapter_class type_ d.saver_classes with
    | Option.none =>
      Except.error (.noSaverClass type_ node_.name fn_qualname)
    | some c => Except.ok c
  let adapter_factory ← AdapterFactory.make saver_cls d.kwargs
  return d.synthesize node_ saver_cls adapter_factory

/-! ### Concurrent value resolver (`hamilton.experimental.h_async`) -/

/-- Modelled from the spec: a `PendingOrValue` (spec section 4.6) is an
immediate value, a single pending computation (whose eventual result may
itself be pending), or a pending group of further `PendingOrValue`s. The
source of `h_async.process_value`/`await_dict_of_tasks` is not part of
this repository snapshot; only its tests are. -/
inductive PendingOrValue (α : Type) where
  | immediate (v : α)
  | pending (rest : PendingOrValue α)
  | group (items : List (PendingOrValue α))

mutual

/-- Modelled from the spec: `process_value` (`resolveOne`) returns
immediate values unchanged, suspends on a single pending computation and
resolves its result, and recursively resolves every member of a pending
group. -/
def process_value {α : Type} : PendingOrValue α → PendingOrValue α
  | .immediate v => .immediate v
  | .pending rest => process_value rest
  | .group items => .group (process_value_list items)

/-- Modelled from the spec: resolve each member of a pending group. -/
def process_value_list {α : Type} :
    List (PendingOrValue α) → List (PendingOrValue α)
  | [] => []
  | x :: xs => process_value x :: process_value_list xs

end

/-- Modelled from the spec: `await_dict_of_tasks` (`resolveAll`) resolves
every entry of the task table with the single-value rule, preserving key
identity. -/
def await_dict_of_tasks {κ α : Type} (tasks : List (κ × PendingOrValue α)) :
    List (κ × PendingOrValue α) :=
  tasks.map (fun p => (p.1, process_value p.2))

mutual

/-- A value is fully resolved when no pending computation remains at any
nesting depth. -/
def fully_resolved {α : Type} : PendingOrValue α → Bool
  | .immediate _ => true
  | .pending _ => false
  | .group items => fully_resolved_list items

/-- Every member of the list is fully resolved. -/
def fully_resolved_list {α : Type} : List (PendingOrValue α) → Bool
  | [] => true
  | x :: xs => fully_resolved x && fully_resolved_list xs

end

/-- The missing-parameter set listed by an error message, when the
message interpolates one. -/
def InvalidDecoratorException.listedMissing :
    InvalidDecoratorException → Option (List String)
  | .missingParams m _ _ => some m
  | _ => Option.none

/-- The extra-parameter set listed by an error message, when the message
interpolates one. -/
def InvalidDecoratorException.listedExtra :
    InvalidDecoratorException → Option (List String)
  | .extraParams e => some e
  | _ => Option.none

/-! ## Concrete instances used by the witnesses -/

/-- A JSON-style loader/saver: requires `path`, optionally takes `sep`,
applies to `dict`, loads the value found under `path` in its constructor
kwargs (so witnesses can observe the data flow) with a string metadata
token, and saves by pairing the path with the saved value. -/
def exLoaderA : AdapterClass :=
  { sname := "json"
    clsname := "JSONLoaderA"
    required_args := [("path", .named "str")]
    optional_args := [("sep", .named "str")]
    applies_to := fun t => t == TType.named "dict"
    can_load := true
    can_save := true
    load := fun kwargs _ => (dictGetD kwargs "path" .none, .str "meta")
    save := fun kwargs v => .pair (dictGetD kwargs "path" .none) v }

/-- An earlier-registered loader that also applies to `dict`. -/
def exLoaderB : AdapterClass :=
  { exLoaderA with clsname := "JSONLoaderB" }

/-- A loader whose predicate accepts nothing. -/
def exLoaderNone : AdapterClass :=
  { exLoaderA with clsname := "NoneLoader", applies_to := fun _ => false }

/-- An adapter class with one required argument `a` and no optional ones,
used by the C3 counterexample. -/
def exCls3 : AdapterClass :=
  { exLoaderA with
    clsname := "OneArgAdapter"
    required_args := [("a", .named "T")]
    optional_args := [] }

/-- The kwargs `dict(b=value(0))` supplied to `exCls3`: `a` is missing and
`b` is extra, so both validation sets are non-empty. -/
def exKw3 : List (String × ParametrizedDependency) :=
  [("b", .literal (.int 0))]

/-- A function `raw_data(input_data: dict) -> dict` returning its argument. -/
def exFn : PyFunc :=
  { fname := "raw_data"
    qualname := "raw_data"
    params := [("input_data", .named "dict")]
    ret := .named "dict"
    call := fun kwargs => dictGetD kwargs "input_data" .none }

/-- A function `filtered(data: dict, valid_keys: list) -> dict`: a two-parameter
function for the explicit-`inject_` scenarios. -/
def exFn2 : PyFunc :=
  { fname := "filtered"
    qualname := "filtered"
    params := [("data", .named "dict"), ("valid_keys", .named "list")]
    ret := .named "dict"
    call := fun kwargs =>
      .pair (dictGetD kwargs "data" .none) (dictGetD kwargs "valid_keys" .none) }

/-- A zero-parameter function. -/
def exFn0 : PyFunc :=
  { fname := "nullary"
    qualname := "nullary"
    params := []
    ret := .named "dict"
    call := fun _ => .none }

/-- The decorator `@load_from.json(path=source("raw_data_path"))` over `exLoaderA`. -/
def exDec : LoadFromDecorator :=
  { loader_classes := [exLoaderA]
    inject := Option.none
    kwargs := [("path", .upstream "raw_data_path")] }

/-- The same decorator with an explicit `inject_="data"`. -/
def exDec2 : LoadFromDecorator :=
  { exDec with inject := some "data" }

/-- The nodes produced by augmenting `exFn` with `exDec`. -/
def exGenNodes : List Node :=
  (exDec.generate_nodes exFn).toOption.getD []

/-- The synthesized loader node of the example augmentation. -/
def exLoaderNode : Node := exGenNodes.getD 0 default

/-- The rewritten target node of the example augmentation. -/
def exDataNode : Node := exGenNodes.getD 1 default

/-- The loader node's output on the example input
`{"raw_data_path": "/tmp/x.json"}`. -/
def exLoadOut : PyVal :=
  (exLoaderNode.callabl [("raw_data_path", .str "/tmp/x.json")]).toOption.getD
    .none

/-- The nodes produced by augmenting `exFn2` with `exDec2`. -/
def exGenNodes2 : List Node :=
  (exDec2.generate_nodes exFn2).toOption.getD []

/-- The synthesized loader node of the explicit-`inject_` augmentation. -/
def exLoaderNode2 : Node := exGenNodes2.getD 0 default

/-- The rewritten target node of the explicit-`inject_` augmentation. -/
def exDataNode2 : Node := exGenNodes2.getD 1 default

/-- A node to decorate with `save_to`: name `final_output`, output type
`dict`, one required input, body returning its input. -/
def exNode : Node :=
  { base_name := "final_output"
    namespc := []
    typ := .named "dict"
    input_types := [("data", (.named "dict", DependencyType.required))]
    callabl := fun kwargs => .ok (dictGetD kwargs "data" .none)
    tags := [] }

/-- The decorator `@save_to.json(path=source("raw_data_path"),
output_name_="data_save_output")` over `exLoaderA`. -/
def exSaveDec : SaveToDecorator :=
  { saver_classes := [exLoaderA]
    output_name := some "data_save_output"
    kwargs := [("path", .upstream "raw_data_path")] }

/-- The node list returned by decorating `exNode` with `exSaveDec`. -/
def exSaveList : List Node :=
  (exSaveDec.transform_node exNode "final_output").toOption.getD []

/-- A load decorator whose only candidate loader applies to nothing, so
adapter resolution fails. -/
def exDecNoLoader : LoadFromDecorator :=
  { exDec with loader_classes := [exLoaderNone] }

/-- A pending group of three further pending computations, nested several
levels deep. -/
def exGroupTask : PendingOrValue Int :=
  .pending (.group
    [.pending (.immediate 3),
     .pending (.pending (.immediate 4)),
     .pending (.group [.immediate 5])])

/-- A task table for the C9 witness: an immediate value, a single pending
computation, and a pending group of three further pending computations. -/
def exTasks : List (String × PendingOrValue Int) :=
  [("immediate", .immediate 1),
   ("single", .pending (.immediate 2)),
   ("grouped", exGroupTask)]

/-! ## Helper lemmas -/

/-- In a list with nodup keys, a key determines its value. -/
theorem nodup_keys_eq {α : Type} {l : List (String × α)}
    (h : (l.map Prod.fst).Nodup) {n : String} {x y : α}
    (hx : (n, x) ∈ l) (hy : (n, y) ∈ l) : x = y := by
  induction l with
  | nil => cases hx
  | cons hd tl ih =>
    simp only [List.map_cons, List.nodup_cons, List.mem_map] at h
    rcases List.mem_cons.1 hx with hx' | hx' <;>
      rcases List.mem_cons.1 hy with hy' | hy'
    · exact congrArg Prod.snd (hx'.trans hy'.symm)
    · exact absurd ⟨(n, y), hy', by rw [← hx']⟩ h.1
    · exact absurd ⟨(n, x), hx', by rw [← hy']⟩ h.1
    · exact ih h.2 hx' hy'

/-- A `List.find?` hit decomposes the list around the first
match: everything before the hit fails the predicate. -/
theorem find?_eq_some_decomp {α : Type} {p : α → Bool} {l : List α} {a : α}
    (h : l.find? p = some a) :
    p a = true ∧ ∃ l1 l2, l = l1 ++ a :: l2 ∧ ∀ b ∈ l1, p b = false := by
  induction l with
  | nil => cases h
  | cons hd tl ih =>
    by_cases hp : p hd = true
    · rw [List.find?_cons_of_pos _ hp] at h
      obtain rfl : hd = a := by injection h
      exact ⟨hp, [], tl, rfl, by intro b hb; cases hb⟩
    · rw [List.find?_cons_of_neg _ (by simpa using hp)] at h
      obtain ⟨hpa, l1, l2, rfl, hfail⟩ := ih h
      refine ⟨hpa, hd :: l1, l2, rfl, ?_⟩
      intro b hb
      rcases List.mem_cons.1 hb with rfl | hb'
      · simpa using hp
      · exact hfail b hb'

/-! ## C1: adapter resolution -/

/-- C1: `resolve_adapter_class` returns the most recently registered
candidate whose `applies_to` predicate accepts the type — a candidate that
applies, with every candidate registered after it failing the predicate —
returns `none` exactly when no candidate's predicate accepts the type, and
re-resolution with identical inputs returns the same implementation. -/
theorem resolve_adapter_class_spec (type_ : TType)
    (cands : List AdapterClass) :
    (∀ c, resolve_adapter_class type_ cands = some c →
      c.applies_to type_ = true ∧
      ∃ pre post, cands = pre ++ c :: post ∧
        ∀ d ∈ post, d.applies_to type_ = false) ∧
    (resolve_adapter_class type_ cands = Option.none ↔
      ∀ c ∈ cands, c.applies_to type_ = false) ∧
    resolve_adapter_class type_ cands = resolve_adapter_class type_ cands := by
  refine ⟨?_, ?_, rfl⟩
  · intro c hc
    obtain ⟨happ, l1, l2, hsplit, hfail⟩ := find?_eq_some_decomp hc
    refine ⟨happ, l2.reverse, l1.reverse, ?_, ?_⟩
    · have : cands.reverse.reverse = (l1 ++ c :: l2).reverse :=
        congrArg List.reverse hsplit
      simpa [List.reverse_append, List.append_assoc] using this
    · intro d hd
      exact hfail d (List.mem_reverse.1 hd)
  · unfold resolve_adapter_class
    rw [List.find?_eq_none]
    constructor
    · intro h c hc
      simpa using h c (List.mem_reverse.2 hc)
    · intro h c hc
      simpa using h c (List.mem_reverse.1 hc)

/-- Witness for C1 at a concrete candidate list: of two candidates both
applying to `dict`, the later-registered one is returned, and with no
applying candidate the result is `none`. -/
theorem resolve_adapter_class_spec_witness :
    exLoaderA.applies_to (TType.named "dict") = true ∧
    ∃ pre post, [exLoaderB, exLoaderA] = pre ++ exLoaderA :: post ∧
      ∀ d ∈ post, d.applies_to (TType.named "dict") = false :=
  (resolve_adapter_class_spec (TType.named "dict")
    [exLoaderB, exLoaderA]).1 exLoaderA rfl

/-! ## C4: `resolve_kwargs` partitions the kwargs -/

/-- C4: `resolve_kwargs` sends exactly the `Upstream` entries (with their
sources) to the dependencies output and exactly the `Literal` entries
(with their values) to the literals output; every input key appears in one
of the two outputs and, when the input keys are distinct (as in a Python
dict), no key appears in both. -/
theorem resolve_kwargs_partition
    (kwargs : List (String × ParametrizedDependency)) :
    (∀ n s, (n, s) ∈ (resolve_kwargs kwargs).1 ↔
      (n, ParametrizedDependency.upstream s) ∈ kwargs) ∧
    (∀ n v, (n, v) ∈ (resolve_kwargs kwargs).2 ↔
      (n, ParametrizedDependency.literal v) ∈ kwargs) ∧
    (∀ n, n ∈ kwargs.map Prod.fst ↔
      (n ∈ (resolve_kwargs kwargs).1.map Prod.fst ∨
       n ∈ (resolve_kwargs kwargs).2.map Prod.fst)) ∧
    ((kwargs.map Prod.fst).Nodup → ∀ n,
      ¬ (n ∈ (resolve_kwargs kwargs).1.map Prod.fst ∧
         n ∈ (resolve_kwargs kwargs).2.map Prod.fst)) := by
  have hdep : ∀ n s, (n, s) ∈ (resolve_kwargs kwargs).1 ↔
      (n, ParametrizedDependency.upstream s) ∈ kwargs := by
    intro n s
    simp only [resolve_kwargs, List.mem_filterMap]
    constructor
    · rintro ⟨⟨k, d⟩, hmem, hsome⟩
      cases d with
      | upstream src =>
        simp only [Option.some.injEq, Prod.mk.injEq] at hsome
        obtain ⟨rfl, rfl⟩ := hsome
        exact hmem
      | literal v => cases hsome
    · intro hmem
      exact ⟨(n, .upstream s), hmem, rfl⟩
  have hlit : ∀ n v, (n, v) ∈ (resolve_kwargs kwargs).2 ↔
      (n, ParametrizedDependency.literal v) ∈ kwargs := by
    intro n v
    simp only [resolve_kwargs, List.mem_filterMap]
    constructor
    · rintro ⟨⟨k, d⟩, hmem, hsome⟩
      cases d with
      | upstream src => cases hsome
      | literal w =>
        simp only [Option.some.injEq, Prod.mk.injEq] at hsome
        obtain ⟨rfl, rfl⟩ := hsome
        exact hmem
    · intro hmem
      exact ⟨(n, .literal v), hmem, rfl⟩
  refine ⟨hdep, hlit, ?_, ?_⟩
  · intro n
    constructor
    · intro hn
      obtain ⟨⟨k, d⟩, hmem, hk⟩ := List.mem_map.1 hn
      dsimp at hk; subst hk
      cases d with
      | upstream s =>
        exact Or.inl (List.mem_map.2 ⟨(k, s), (hdep k s).2 hmem, rfl⟩)
      | literal v =>
        exact Or.inr (List.mem_map.2 ⟨(k, v), (hlit k v).2 hmem, rfl⟩)
    · rintro (hn | hn)
      · obtain ⟨⟨k, s⟩, hmem, hk⟩ := List.mem_map.1 hn
        dsimp at hk; subst hk
        exact List.mem_map.2 ⟨(k, .upstream s), (hdep k s).1 hmem, rfl⟩
      · obtain ⟨⟨k, v⟩, hmem, hk⟩ := List.mem_map.1 hn
        dsimp at hk; subst hk
        exact List.mem_map.2 ⟨(k, .literal v), (hlit k v).1 hmem, rfl⟩
  · intro hnodup n ⟨h1, h2⟩
    obtain ⟨⟨k, s⟩, hmem1, hk1⟩ := List.mem_map.1 h1
    dsimp at hk1; subst hk1
    obtain ⟨⟨k', v⟩, hmem2, hk2⟩ := List.mem_map.1 h2
    dsimp at hk2; subst hk2
    have hu := (hdep _ s).1 hmem1
    have hl := (hlit _ v).1 hmem2
    exact absurd (nodup_keys_eq hnodup hu hl) (by simp)

/-- Witness for C4 at a concrete two-entry kwargs map with distinct keys:
the `Upstream` entry lands in dependencies, the `Literal` entry in
literals, and the key sets are disjoint. -/
theorem resolve_kwargs_partition_witness :
    (("path", "raw_data_path") ∈
      (resolve_kwargs
        [("path", ParametrizedDependency.upstream "raw_data_path"),
         ("sep", ParametrizedDependency.literal (PyVal.str ","))]).1 ↔
      ("path", ParametrizedDependency.upstream "raw_data_path") ∈
        [("path", ParametrizedDependency.upstream "raw_data_path"),
         ("sep", ParametrizedDependency.literal (PyVal.str ","))]) ∧
    ¬ ("path" ∈
        (resolve_kwargs
          [("path", ParametrizedDependency.upstream "raw_data_path"),
           ("sep", ParametrizedDependency.literal (PyVal.str ","))]).1.map
            Prod.fst ∧
       "path" ∈
        (resolve_kwargs
          [("path", ParametrizedDependency.upstream "raw_data_path"),
           ("sep", ParametrizedDependency.literal (PyVal.str ","))]).2.map
            Prod.fst) :=
  ⟨(resolve_kwargs_partition _).1 "path" "raw_data_path",
   (resolve_kwargs_partition _).2.2.2 (by decide) "path"⟩

/-- The test `dictContains` agrees with membership in the key list. -/
theorem dictContains_iff {α : Type} (m : List (String × α)) (k : String) :
    dictContains m k = true ↔ k ∈ m.map Prod.fst := by
  simp only [dictContains, List.any_eq_true, List.mem_map,
    decide_eq_true_eq]

/-! ## C3: `AdapterFactory.validate` (corrected) -/

/-- C3 counterexample: with required `{a}`, optional `{}` and supplied
`{b}`, both `missing = {a}` and `extra = {b}` are non-empty, yet the
raised error interpolates only the missing set and the schemas — it does
not list the extra set, contradicting the claim that the error lists both
sets whenever either is non-empty. -/
theorem validate_lists_both_sets_cex :
    missing_params exCls3 exKw3 = ["a"] ∧
    extra_params exCls3 exKw3 = ["b"] ∧
    (AdapterFactory.mk exCls3 exKw3).validate =
      .error (.missingParams ["a"] [("a", .named "T")] []) ∧
    InvalidDecoratorException.listedExtra
      (.missingParams ["a"] [("a", .named "T")] []) = Option.none := by
  refine ⟨by decide, by decide, rfl, rfl⟩

/-- C3 (amended): validation succeeds exactly when both computed sets
`missing = required - supplied` and `extra = supplied - required -
optional` are empty; the membership of each set is exactly the stated set
difference (so the missing names are listed in full, never a subset); when
`missing` is non-empty the error lists exactly the missing names together
with the full required and optional schemas; when only `extra` is
non-empty the error lists exactly the extra names. -/
theorem validate_spec_amended (cls : AdapterClass)
    (kwargs : List (String × ParametrizedDependency)) :
    ((AdapterFactory.mk cls kwargs).validate = .ok () ↔
      missing_params cls kwargs = [] ∧ extra_params cls kwargs = []) ∧
    (∀ k, k ∈ missing_params cls kwargs ↔
      k ∈ cls.required_args.map Prod.fst ∧ k ∉ kwargs.map Prod.fst) ∧
    (∀ k, k ∈ extra_params cls kwargs ↔
      k ∈ kwargs.map Prod.fst ∧ k ∉ cls.required_args.map Prod.fst ∧
        k ∉ cls.optional_args.map Prod.fst) ∧
    (missing_params cls kwargs ≠ [] →
      (AdapterFactory.mk cls kwargs).validate =
        .error (.missingParams (missing_params cls kwargs)
          cls.required_args cls.optional_args)) ∧
    (missing_params cls kwargs = [] → extra_params cls kwargs ≠ [] →
      (AdapterFactory.mk cls kwargs).validate =
        .error (.extraParams (extra_params cls kwargs))) := by
  refine ⟨?_, ?_, ?_, ?_, ?_⟩
  · unfold AdapterFactory.validate
    constructor
    · intro h
      by_cases hm : (missing_params cls kwargs).length > 0
      · simp [hm] at h
      · by_cases he : (extra_params cls kwargs).length > 0
        · simp [hm, he] at h
        · exact ⟨List.length_eq_zero.1 (by omega),
                 List.length_eq_zero.1 (by omega)⟩
    · rintro ⟨hm, he⟩
      simp [hm, he]
  · intro k
    simp only [missing_params, List.mem_filter, decide_eq_true_eq,
      dictContains_iff]
  · intro k
    simp only [extra_params, List.mem_filter, decide_eq_true_eq,
      dictContains_iff]
  · intro hm
    have : (missing_params cls kwargs).length > 0 :=
      List.length_pos.2 hm
    simp [AdapterFactory.validate, this]
  · intro hm he
    have h0 : ¬ (missing_params cls kwargs).length > 0 := by simp [hm]
    have h1 : (extra_params cls kwargs).length > 0 :=
      List.length_pos.2 he
    simp [AdapterFactory.validate, h0, h1]

/-- Witness for C3's amended claim at `exCls3`/`exKw3`: the missing set is
non-empty there, and the raised error lists it in full with both
schemas. -/
theorem validate_spec_amended_witness :
    (AdapterFactory.mk exCls3 exKw3).validate =
      .error (.missingParams (missing_params exCls3 exKw3)
        exCls3.required_args exCls3.optional_args) :=
  (validate_spec_amended exCls3 exKw3).2.2.2.1 (by decide)

/-! ## C8: load-path construction-time failures -/

/-- C8: with no explicit injection name, a zero-parameter function fails
node generation naming the function; a multi-parameter function fails
naming the function; and an unresolved adapter type fails naming the type,
the injection parameter and the function. All three are
`InvalidDecoratorException`s raised by `generate_nodes` itself, i.e. at
construction time. -/
theorem load_path_construction_errors (d : LoadFromDecorator) (fn : PyFunc) :
    (d.inject = Option.none → fn.params = [] →
      d.generate_nodes fn = .error (.noParameters fn.qualname)) ∧
    (d.inject = Option.none → 2 ≤ fn.params.length →
      d.generate_nodes fn = .error (.multipleParams fn.qualname)) ∧
    (∀ inj ty, d.get_inject_parameter fn = .ok (inj, ty) →
      resolve_adapter_class ty d.loader_classes = Option.none →
      d.generate_nodes fn = .error (.noLoaderClass ty inj fn.qualname)) := by
  refine ⟨?_, ?_, ?_⟩
  · intro hinj hparams
    have h1 : d.get_inject_parameter fn = .error (.noParameters fn.qualname) := by
      simp [LoadFromDecorator.get_inject_parameter, hinj, hparams]
    unfold LoadFromDecorator.generate_nodes
    rw [h1]; rfl
  · intro hinj hlen
    have h0 : ¬ fn.params.length = 0 := by omega
    have h1 : fn.params.length ≠ 1 := by omega
    have h2 : d.get_inject_parameter fn = .error (.multipleParams fn.qualname) := by
      simp [LoadFromDecorator.get_inject_parameter, hinj, h0, h1]
    unfold LoadFromDecorator.generate_nodes
    rw [h2]; rfl
  · intro inj ty hok hres
    unfold LoadFromDecorator.generate_nodes
    rw [hok]
    simp only [bind, Except.bind, hres]

/-- Witness for C8: the zero-parameter function, the two-parameter
function without `inject_`, and the unresolvable-type decorator each fail
at the concrete instances. -/
theorem load_path_construction_errors_witness :
    exDec.generate_nodes exFn0 = .error (.noParameters "nullary") ∧
    exDec.generate_nodes exFn2 = .error (.multipleParams "filtered") ∧
    exDecNoLoader.generate_nodes exFn =
      .error (.noLoaderClass (.named "dict") "input_data" "raw_data") :=
  ⟨(load_path_construction_errors exDec exFn0).1 rfl rfl,
   (load_path_construction_errors exDec exFn2).2.1 rfl (by decide),
   (load_path_construction_errors exDecNoLoader exFn).2.2 "input_data"
     (TType.named "dict") rfl rfl⟩

/-! ## C10: invalid explicit `inject_` -/

/-- C10: an explicit `inject_` name that is not among the function's
parameters makes `generate_nodes` fail at construction time with an
`InvalidDecoratorException` naming the invalid parameter and the
function. -/
theorem invalid_inject_construction_error (d : LoadFromDecorator)
    (fn : PyFunc) (p : String) (hinj : d.inject = some p)
    (hmem : p ∉ fn.params.map Prod.fst) :
    d.generate_nodes fn = .error (.invalidInject p fn.qualname) := by
  have hc : dictContains fn.params p = false := by
    cases hcc : dictContains fn.params p with
    | false => rfl
    | true => exact absurd ((dictContains_iff _ _).1 hcc) hmem
  have h1 : d.get_inject_parameter fn = .error (.invalidInject p fn.qualname) := by
    simp [LoadFromDecorator.get_inject_parameter, hinj, hc]
  unfold LoadFromDecorator.generate_nodes
  rw [h1]; rfl

/-- Witness for C10: `inject_="data"` against the one-parameter function
`raw_data(input_data)` fails naming `data` and `raw_data`. -/
theorem invalid_inject_construction_error_witness :
    exDec2.generate_nodes exFn = .error (.invalidInject "data" "raw_data") :=
  invalid_inject_construction_error exDec2 exFn "data" rfl (by decide)

/-! ## Dict lemmas -/

/-- A successful dict lookup returns an entry of the dict. -/
theorem dictLookup_mem {α : Type} {m : List (String × α)} {k : String}
    {v : α} (h : dictLookup m k = some v) : (k, v) ∈ m := by
  unfold dictLookup at h
  cases hf : m.find? (fun p => p.1 = k) with
  | none => rw [hf] at h; cases h
  | some p =>
    rw [hf] at h
    have hmem := List.mem_of_find?_eq_some hf
    have hpk : p.1 = k := by simpa using List.find?_some hf
    injection h with h
    subst h
    rw [← hpk]
    exact hmem

/-- A contained key looks up to some value. -/
theorem dictContains_lookup {α : Type} {m : List (String × α)} {k : String}
    (h : dictContains m k = true) : ∃ v, dictLookup m k = some v := by
  obtain ⟨p, hp, hpk⟩ := List.any_eq_true.1 h
  cases hf : m.find? (fun q => q.1 = k) with
  | none =>
    exact absurd hpk (by simpa using List.find?_eq_none.1 hf p hp)
  | some q => exact ⟨q.2, by simp [dictLookup, hf]⟩

/-- Updating an existing key in place makes it look up to the new value. -/
theorem dictLookup_map_update {α : Type} (k : String) (v : α) :
    ∀ m : List (String × α), dictContains m k = true →
      dictLookup (m.map (fun p => if p.1 = k then (k, v) else p)) k =
        some v := by
  intro m
  induction m with
  | nil => intro h; simp [dictContains] at h
  | cons hd tl ih =>
    intro h
    by_cases hk : hd.1 = k
    · simp only [List.map_cons, if_pos hk, dictLookup]
      rw [List.find?_cons_of_pos _ (by simp)]
      rfl
    · have h' : dictContains tl k = true := by
        simpa [dictContains, hk] using h
      simp only [List.map_cons, if_neg hk, dictLookup]
      rw [List.find?_cons_of_neg _ (by simp [hk])]
      exact ih h'

/-- Appending a fresh key makes it look up to the appended value. -/
theorem dictLookup_append_fresh {α : Type} (k : String) (v : α) :
    ∀ m : List (String × α), dictContains m k = false →
      dictLookup (m ++ [(k, v)]) k = some v := by
  intro m
  induction m with
  | nil =>
    intro _
    simp only [List.nil_append, dictLookup]
    rw [List.find?_cons_of_pos _ (by simp)]
    rfl
  | cons hd tl ih =>
    intro h
    rw [dictContains, List.any_cons, Bool.or_eq_false_iff] at h
    obtain ⟨hk0, h'⟩ := h
    have hk : ¬ hd.1 = k := by simpa using hk0
    simp only [List.cons_append, dictLookup]
    rw [List.find?_cons_of_neg _ (by simp [hk])]
    exact ih h'

/-- Inserting `v` under `k` makes `k` look up to `v`. -/
theorem dictLookup_dictInsert_self {α : Type} (m : List (String × α))
    (k : String) (v : α) : dictLookup (dictInsert m k v) k = some v := by
  unfold dictInsert
  by_cases hc : dictContains m k
  · rw [if_pos hc]
    exact dictLookup_map_update k v m hc
  · rw [if_neg hc]
    exact dictLookup_append_fresh k v m (by simpa using hc)

/-! ## Inversion lemmas for the load path -/

/-- A successfully constructed factory holds exactly the class and kwargs
it was given. -/
theorem AdapterFactory.make_ok_inv {cls : AdapterClass}
    {kwargs : List (String × ParametrizedDependency)} {fac : AdapterFactory}
    (h : AdapterFactory.make cls kwargs = .ok fac) :
    fac = ⟨cls, kwargs⟩ := by
  unfold AdapterFactory.make at h
  cases hv : AdapterFactory.validate ⟨cls, kwargs⟩ with
  | error e => rw [hv] at h; exact Except.noConfusion h
  | ok u => rw [hv] at h; cases u; injection h with h; exact h.symm

/-- The injection parameter returned by `get_inject_parameter` is a
signature parameter, with its declared type. -/
theorem get_inject_parameter_mem (d : LoadFromDecorator) (fn : PyFunc)
    (inj : String) (ty : TType)
    (h : d.get_inject_parameter fn = .ok (inj, ty)) : (inj, ty) ∈ fn.params := by
  unfold LoadFromDecorator.get_inject_parameter at h
  cases hd : d.inject with
  | none =>
    rw [hd] at h
    dsimp only at h
    by_cases h0 : fn.params.length = 0
    · rw [if_pos h0] at h; exact Except.noConfusion h
    · rw [if_neg h0] at h
      by_cases h1 : fn.params.length ≠ 1
      · rw [if_pos h1] at h; exact Except.noConfusion h
      · rw [if_neg h1] at h
        cases hp : fn.params with
        | nil => rw [hp] at h; exact Except.noConfusion h
        | cons q rest =>
          rw [hp] at h
          obtain ⟨qn, qt⟩ := q
          injection h with h
          rw [← h]
          exact List.mem_cons_self _ _
  | some q =>
    rw [hd] at h
    dsimp only at h
    by_cases hc : dictContains fn.params q = true
    · rw [if_pos hc] at h
      injection h with h
      obtain ⟨v, hv⟩ := dictContains_lookup hc
      have hmem := dictLookup_mem hv
      have heq : (q, dictGetD fn.params q TType.any) = (inj, ty) := h
      rw [← heq]
      simpa [dictGetD, hv] using hmem
    · rw [if_neg hc] at h
      exact Except.noConfusion h

/-- Inversion of a successful `generate_nodes`: the injection parameter
resolved, the loader class resolved, the factory validated, and the result
is the synthesized node pair. -/
theorem generate_nodes_ok_inv (d : LoadFromDecorator) (fn : PyFunc)
    (l : List Node) (h : d.generate_nodes fn = .ok l) :
    ∃ inj ty cls fac,
      d.get_inject_parameter fn = .ok (inj, ty) ∧
      resolve_adapter_class ty d.loader_classes = some cls ∧
      AdapterFactory.make cls d.kwargs = .ok fac ∧
      l = d.synthesize fn inj ty cls fac := by
  unfold LoadFromDecorator.generate_nodes at h
  cases hinj : d.get_inject_parameter fn with
  | error e =>
    rw [hinj] at h
    simp only [bind, Except.bind] at h
    exact Except.noConfusion h
  | ok v =>
    obtain ⟨inj, ty⟩ := v
    rw [hinj] at h
    simp only [bind, Except.bind] at h
    cases hres : resolve_adapter_class ty d.loader_classes with
    | none =>
      rw [hres] at h
      simp only [bind, Except.bind] at h
      exact Except.noConfusion h
    | some cls =>
      rw [hres] at h
      simp only [bind, Except.bind] at h
      cases hfac : AdapterFactory.make cls d.kwargs with
      | error e =>
        rw [hfac] at h
        simp only [bind, Except.bind] at h
        exact Except.noConfusion h
      | ok fac =>
        rw [hfac] at h
        simp only [bind, Except.bind, pure, Except.pure,
          Except.ok.injEq] at h
        exact ⟨inj, ty, cls, fac, rfl, hres, hfac, h.symm⟩

/-- The loader node's namespaced name can never collide with the bare
injection parameter name. -/
theorem loader_name_ne (f p : String) : joinDots ["load_data", f, p] ≠ p := by
  intro h
  have hlen := congrArg String.length h
  have h1 : ("." : String).length = 1 := rfl
  simp only [joinDots, String.length_append, h1] at hlen
  omega

/-- A successful `load_data` call went through `create_loader` and
returned the loader's (value, metadata) pair. -/
theorem load_data_ok_pair {fac : AdapterFactory} {lt : TType}
    {rk : List (String × PyVal)} {dp : List (String × String)}
    {ik : List (String × PyVal)} {out : PyVal}
    (h : load_data fac lt rk dp ik = .ok out) :
    ∃ dl, fac.create_loader
        (dictMerge rk (dictComprehension (fun key => dictGetD dp key key) ik)) =
          .ok dl ∧
      out = .pair (dl lt).1 (dl lt).2 := by
  unfold load_data at h
  dsimp only at h
  split at h
  · exact Except.noConfusion h
  · rename_i dl heq
    exact ⟨dl, heq, by injection h with h; exact h.symm⟩

/-- Evaluation of the rewritten node's body on the loader's output: look
up the pair, inject its first component under the injection parameter,
drop the loader entry, and call the function. -/
theorem inject_function_eval (fn : PyFunc) (p : String) (out : PyVal)
    (L : String) (hne : ¬ L = p) :
    inject_function fn p L [(L, out)] = .ok (fn.call [(p, out.first)]) := by
  have hlk : dictLookup [(L, out)] L = some out := by
    unfold dictLookup
    rw [List.find?_cons_of_pos _ (by simp)]
    rfl
  have hcont : dictContains [(L, out)] p = false := by
    simp [dictContains, hne]
  have hins : dictInsert [(L, out)] p out.first = [(L, out), (p, out.first)] := by
    simp [dictInsert, hcont]
  have hpL : ¬ p = L := fun h => hne h.symm
  have hrem : dictRemove [(L, out), (p, out.first)] L = [(p, out.first)] := by
    simp [dictRemove, hpL]
  simp only [inject_function, hlk, hins, hrem]

/-! ## C2: the rewritten node computes the original function on the
loaded value -/

/-- C2: for a single-parameter function whose load-path augmentation
succeeded, whenever the loader node's body succeeds its output is a
(value, metadata) pair, and invoking the rewritten node on that output
yields exactly the original function applied to the value component. -/
theorem load_path_inject_correct (d : LoadFromDecorator) (fn : PyFunc)
    (p : String) (t : TType) (ln dn : Node)
    (hparams : fn.params = [(p, t)])
    (hgen : d.generate_nodes fn = .ok [ln, dn])
    (inputs : List (String × PyVal)) (out : PyVal)
    (hload : ln.callabl inputs = .ok out) :
    ∃ v meta, out = PyVal.pair v meta ∧
      dn.callabl [(ln.name, out)] = .ok (fn.call [(p, v)]) := by
  obtain ⟨inj, ty, cls, fac, hinj, hres, hfac, hsyn⟩ :=
    generate_nodes_ok_inv d fn [ln, dn] hgen
  have hmem := get_inject_parameter_mem d fn inj ty hinj
  rw [hparams] at hmem
  have heq : (inj, ty) = (p, t) := List.mem_singleton.1 hmem
  injection heq with heqp heqt
  subst heqp; subst heqt
  rcases hrk : resolve_kwargs d.kwargs with ⟨deps, lits⟩
  simp only [LoadFromDecorator.synthesize, hrk] at hsyn
  injection hsyn with hln hrest
  injection hrest with hdn _
  have hname : ln.name = joinDots ["load_data", fn.fname, inj] := by
    rw [hln]; rfl
  have hcall : ln.callabl =
      load_data fac ty lits (invert_dependencies deps) := by
    rw [hln]
  rw [hcall] at hload
  obtain ⟨dl, _, hout⟩ := load_data_ok_pair hload
  refine ⟨(dl ty).1, (dl ty).2, hout, ?_⟩
  have hdncall : dn.callabl =
      inject_function fn inj (joinDots ["load_data", fn.fname, inj]) := by
    rw [hdn]; rfl
  rw [hdncall, hname]
  have := inject_function_eval fn inj out
    (joinDots ["load_data", fn.fname, inj]) (loader_name_ne fn.fname inj)
  rw [this, hout]
  rfl

/-- Witness for C2: the concrete augmentation of
`raw_data(input_data: dict)` with the JSON loader; the loader's output on
`{"raw_data_path": "/tmp/x.json"}` is a (value, metadata) pair whose value
the rewritten node feeds to the original function. -/
theorem load_path_inject_correct_witness :
    ∃ v meta, exLoadOut = PyVal.pair v meta ∧
      exDataNode.callabl [(exLoaderNode.name, exLoadOut)] =
        .ok (exFn.call [("input_data", v)]) :=
  load_path_inject_correct exDec exFn "input_data" (.named "dict")
    exLoaderNode exDataNode rfl rfl
    [("raw_data_path", PyVal.str "/tmp/x.json")] exLoadOut rfl

/-! ## C5: loader node shape (code bug: declared pair order) -/

/-- C5: evaluating the load-path augmentation of
`raw_data(input_data: dict)` at the concrete JSON loader. The loader
node's name is the injection parameter, its namespace is
`(load_data, raw_data)`, and its input-type map makes the
dependency-supplied required parameter a required graph input under its
upstream source name — but the node's declared output type is
`Tuple[Dict[str, Any], load_type]` (metadata first) even though the
runtime output, like the `load_data` closure's own return annotation
`Tuple[load_type, Dict[str, Any]]`, carries the loaded value first: the
declared type contradicts the claimed (and annotated)
(loaded value, metadata map) order. -/
theorem loader_node_shape_eval :
    exDec.generate_nodes exFn = .ok [exLoaderNode, exDataNode] ∧
    exLoaderNode.base_name = "input_data" ∧
    exLoaderNode.namespc = ["load_data", "raw_data"] ∧
    exLoaderNode.input_types =
      [("raw_data_path", (TType.any, DependencyType.required))] ∧
    exLoaderNode.typ =
      TType.tup (TType.dict (TType.named "str") TType.any)
        (TType.named "dict") ∧
    exLoaderNode.typ ≠
      TType.tup (TType.named "dict")
        (TType.dict (TType.named "str") TType.any) ∧
    exLoadOut = PyVal.pair (PyVal.str "/tmp/x.json") (PyVal.str "meta") := by
  exact ⟨rfl, rfl, rfl, rfl, rfl, by decide, rfl⟩

/-! ## C6: rewritten node (code bug: input types clobbered) -/

/-- C6: evaluating the load-path augmentation of
`filtered(data: dict, valid_keys: list)` with `inject_="data"`. The
original function node declares `valid_keys : list`, but the rewritten
node's input-type map assigns the loader node's type to every parameter,
so the non-injected parameter `valid_keys` does not keep its declared
type — refuting the claim that only the injection parameter's entry
changes. -/
theorem rewritten_node_type_clobber_eval :
    exDec2.generate_nodes exFn2 = .ok [exLoaderNode2, exDataNode2] ∧
    exDataNode2.base_name = "filtered" ∧
    exDataNode2.typ = TType.named "dict" ∧
    dictLookup (Node.from_fn exFn2).input_types "valid_keys" =
      some (TType.named "list", DependencyType.required) ∧
    dictLookup exDataNode2.input_types "valid_keys" =
      some (exLoaderNode2.typ, DependencyType.required) ∧
    exLoaderNode2.typ ≠ TType.named "list" := by
  exact ⟨rfl, rfl, rfl, rfl, rfl, by decide⟩

/-! ## C7: save-path augmentation -/

/-- Inversion of a successful `transform_node`: the saver class resolved
against the node's type, the factory validated, and the result is the
synthesized pair. -/
theorem transform_node_ok_inv (d : SaveToDecorator) (node_ : Node)
    (fnq : String) (l : List Node)
    (h : d.transform_node node_ fnq = .ok l) :
    ∃ cls fac,
      resolve_adapter_class node_.typ d.saver_classes = some cls ∧
      AdapterFactory.make cls d.kwargs = .ok fac ∧
      l = d.synthesize node_ cls fac := by
  unfold SaveToDecorator.transform_node at h
  dsimp only at h
  cases hres : resolve_adapter_class node_.typ d.saver_classes with
  | none =>
    rw [hres] at h
    simp only [bind, Except.bind] at h
    exact Except.noConfusion h
  | some cls =>
    rw [hres] at h
    simp only [bind, Except.bind] at h
    cases hfac : AdapterFactory.make cls d.kwargs with
    | error e =>
      rw [hfac] at h
      simp only [bind, Except.bind] at h
      exact Except.noConfusion h
    | ok fac =>
      rw [hfac] at h
      simp only [bind, Except.bind, pure, Except.pure, Except.ok.injEq] at h
      exact ⟨cls, fac, rfl, hfac, h.symm⟩

/-- Evaluation of the saver node's body when the data entry is present and
the adapter can save: the data entry is removed from the merged kwargs
before the saver is constructed, and the extracted value is saved. -/
theorem save_data_eval (fac : AdapterFactory) (dp : List (String × String))
    (rk : List (String × PyVal)) (nm : String)
    (ikw : List (String × PyVal)) (v : PyVal)
    (hcs : fac.adapter_cls.can_save = true)
    (hlk : dictLookup (merged_save_kwargs rk dp ikw) nm = some v) :
    save_data fac dp rk nm ikw =
      .ok (fac.adapter_cls.save
        ((merged_save_kwargs rk dp ikw).filter (fun q => q.1 ≠ nm)) v) := by
  simp only [save_data, hlk, AdapterFactory.create_saver, hcs, if_true]

/-- C7: a successful save-path augmentation returns the saver node
followed by the original node completely untouched; the saver node's
input-type map contains a mandatory entry for the original node's output
under the original node's name, its body is the `save_data` closure over
the resolved saver class, and on any call whose merged kwargs contain the
data entry it removes that entry before constructing the saver and saves
exactly the extracted value. -/
theorem save_path_correct (d : SaveToDecorator) (node_ : Node)
    (fnq : String) (l : List Node)
    (h : d.transform_node node_ fnq = .ok l) :
    ∃ savn, l = [savn, node_] ∧
      dictLookup savn.input_types node_.name =
        some (node_.typ, DependencyType.required) ∧
      ∃ cls,
        resolve_adapter_class node_.typ d.saver_classes = some cls ∧
        savn.callabl = save_data ⟨cls, d.kwargs⟩
          (invert_dependencies (resolve_kwargs d.kwargs).1)
          (resolve_kwargs d.kwargs).2 node_.name ∧
        ∀ ikw v, cls.can_save = true →
          dictLookup (merged_save_kwargs (resolve_kwargs d.kwargs).2
            (invert_dependencies (resolve_kwargs d.kwargs).1) ikw)
              node_.name = some v →
          savn.callabl ikw = .ok (cls.save
            ((merged_save_kwargs (resolve_kwargs d.kwargs).2
              (invert_dependencies (resolve_kwargs d.kwargs).1) ikw).filter
                (fun q => q.1 ≠ node_.name)) v) := by
  obtain ⟨cls, fac, hres, hfac, hsyn⟩ :=
    transform_node_ok_inv d node_ fnq l h
  have hfac' : fac = ⟨cls, d.kwargs⟩ := AdapterFactory.make_ok_inv hfac
  subst hfac'
  rcases hrk : resolve_kwargs d.kwargs with ⟨deps, lits⟩
  simp only [SaveToDecorator.synthesize, hrk] at hsyn
  subst hsyn
  refine ⟨_, rfl, ?_, cls, hres, ?_, ?_⟩
  · exact dictLookup_dictInsert_self _ _ _
  · rfl
  · intro ikw v hcs hlk
    exact save_data_eval ⟨cls, d.kwargs⟩ (invert_dependencies deps) lits
      node_.name ikw v hcs hlk

/-- Witness for C7 at the concrete save decoration of `final_output`:
the original node is returned untouched, the saver node requires the
original node's output, and its body saves the extracted value after
removing the data entry. -/
theorem save_path_correct_witness :
    ∃ savn, exSaveList = [savn, exNode] ∧
      dictLookup savn.input_types exNode.name =
        some (exNode.typ, DependencyType.required) ∧
      ∃ cls,
        resolve_adapter_class exNode.typ exSaveDec.saver_classes = some cls ∧
        savn.callabl = save_data ⟨cls, exSaveDec.kwargs⟩
          (invert_dependencies (resolve_kwargs exSaveDec.kwargs).1)
          (resolve_kwargs exSaveDec.kwargs).2 exNode.name ∧
        ∀ ikw v, cls.can_save = true →
          dictLookup (merged_save_kwargs (resolve_kwargs exSaveDec.kwargs).2
            (invert_dependencies (resolve_kwargs exSaveDec.kwargs).1) ikw)
              exNode.name = some v →
          savn.callabl ikw = .ok (cls.save
            ((merged_save_kwargs (resolve_kwargs exSaveDec.kwargs).2
              (invert_dependencies (resolve_kwargs exSaveDec.kwargs).1)
                ikw).filter (fun q => q.1 ≠ exNode.name)) v) :=
  save_path_correct exSaveDec exNode "final_output" exSaveList rfl

/-! ## C9: the concurrent value resolver -/

/-- Resolving a group resolves each member. -/
theorem process_value_list_eq_map {α : Type} (l : List (PendingOrValue α)) :
    process_value_list l = l.map process_value := by
  induction l with
  | nil => simp [process_value_list]
  | cons x xs ih => simp [process_value_list, ih]

/-- A list is fully resolved exactly when each member is. -/
theorem fully_resolved_list_iff {α : Type} (l : List (PendingOrValue α)) :
    fully_resolved_list l = true ↔ ∀ x ∈ l, fully_resolved x = true := by
  induction l with
  | nil => simp [fully_resolved_list]
  | cons x xs ih => simp [fully_resolved_list, Bool.and_eq_true, ih]

/-- The resolver `process_value` leaves no pending computation at any nesting depth. -/
theorem fully_resolved_process_value {α : Type} (v : PendingOrValue α) :
    fully_resolved (process_value v) = true := by
  have H : ∀ (n : Nat) (w : PendingOrValue α), sizeOf w ≤ n →
      fully_resolved (process_value w) = true := by
    intro n
    induction n with
    | zero =>
      intro w hw
      exfalso
      cases w <;> simp at hw
    | succ n ih =>
      intro w hw
      cases w with
      | immediate u => simp [process_value, fully_resolved]
      | pending rest =>
        have hspec := PendingOrValue.pending.sizeOf_spec (α := α) rest
        simp only [process_value]
        exact ih rest (by omega)
      | group items =>
        have hspec := PendingOrValue.group.sizeOf_spec (α := α) items
        simp only [process_value, fully_resolved, process_value_list_eq_map]
        rw [fully_resolved_list_iff]
        intro x hx
        obtain ⟨y, hy, rfl⟩ := List.mem_map.1 hx
        have h1 : sizeOf y < sizeOf items := List.sizeOf_lt_of_mem hy
        exact ih y (by omega)
  exact H (sizeOf v) v le_rfl

/-- C9: `process_value` is the identity on immediate values, and
`await_dict_of_tasks` never loses a key — the result table has exactly the
input keys, in order, and every entry's value is fully resolved with no
residual pending computation at any nesting depth. -/
theorem concurrent_resolver_spec {κ α : Type}
    (tasks : List (κ × PendingOrValue α)) :
    (∀ v : α, process_value (PendingOrValue.immediate v) =
      PendingOrValue.immediate v) ∧
    (await_dict_of_tasks tasks).map Prod.fst = tasks.map Prod.fst ∧
    ∀ p ∈ await_dict_of_tasks tasks, fully_resolved p.2 = true := by
  refine ⟨fun v => by simp [process_value], ?_, ?_⟩
  · simp [await_dict_of_tasks]
  · intro p hp
    obtain ⟨q, _, rfl⟩ := List.mem_map.1 hp
    exact fully_resolved_process_value q.2

/-- Witness for C9 at the concrete task table: the immediate entry is
returned unchanged, the key list is preserved, and the deeply nested
pending group resolves fully. -/
theorem concurrent_resolver_spec_witness :
    process_value (PendingOrValue.immediate (1 : Int)) =
      PendingOrValue.immediate 1 ∧
    (await_dict_of_tasks exTasks).map Prod.fst = exTasks.map Prod.fst ∧
    fully_resolved (process_value exGroupTask) = true := by
  have hmem : (("grouped", exGroupTask) :
      String × PendingOrValue Int) ∈ exTasks := by
    unfold exTasks
    exact List.mem_cons_of_mem _ (List.mem_cons_of_mem _
      (List.mem_cons_self _ _))
  have hmem2 : (("grouped", process_value exGroupTask) :
      String × PendingOrValue Int) ∈ await_dict_of_tasks exTasks :=
    List.mem_map.2 ⟨("grouped", exGroupTask), hmem, rfl⟩
  exact ⟨(concurrent_resolver_spec exTasks).1 1,
    (concurrent_resolver_spec exTasks).2.1,
    (concurrent_resolver_spec exTasks).2.2 _ hmem2⟩

end Hamilton
